import Mathlib

/-!
Shallow embedding of the concurrent command dispatcher of `mmh`
(`Exec` and `exec` in the `mmh` package, plus the small cobra glue in
`cmd/`).  The external collaborators (host inventory lookup, the ssh
client/session library, the terminal colour functions) are modelled as
parameters: an invocation is described by lookup functions, a colour
function, and a `Behavior` per host recording what the ssh collaborator
does for that host.  Concurrency is modelled by giving each spawned
task its linear event sequence (serialised at the code's
synchronisation points) and interleaving the per-task sequences under
an arbitrary scheduler; properties are proved for every schedule.
-/

namespace Mmh

/-- A server entry of the inventory.  Only the name is consumed by the
dispatcher (`s.Name`); the connection parameters live behind the
ssh collaborator, which is modelled by `Behavior`. -/
structure Server where
  name : String
deriving DecidableEq

/-- The remote standard-output stream a session produces: the bytes
delivered before the stream ends, and whether the final read ends with
clean end-of-file (`none`) or a read error (`some msg`). -/
structure Stream where
  data : List Char
  endErr : Option String
deriving DecidableEq

/-- Which arm of the termination `select` fires first in `exec`:
the cancellation context (`ctx.Done()`) or the session's done signal
(`sshSession.Done()`). -/
inductive TermReason where
  | cancelled : TermReason
  | done : TermReason
deriving DecidableEq

/-- What the ssh collaborator does for one host during one invocation:
result of `s.sshClient()` (`none` = success), result of
`sshClient.NewSession()`, which termination signal fires first, what the
single receive from `sshSession.Error()` yields (`some e` = a delivered
error value, `none` = the channel is closed without a value, i.e. the
receive reports not-ok), and the remote stdout stream. -/
structure Behavior where
  connectErr : Option String
  sessionErr : Option String
  termReason : TermReason
  errSignal : Option String
  stream : Stream
deriving DecidableEq

/-- Observable events of one invocation of the dispatcher. -/
inductive Event where
  | taskSpawned (host : String) : Event
  | connOpened (host : String) : Event
  | sessionOpened (host : String) : Event
  | pipeExecStarted (host : String) (cmd : String) : Event
  | outputW (text : String) : Event
  | errSent (host : String) (msg : String) : Event
  | termObserved (host : String) (r : TermReason) : Event
  | connClosed (host : String) : Event
  | errDrained (host : String) (sig : Option String) : Event
  | execReturn (host : String) : Event
  | printHostErr (host : String) (msg : String) : Event
  | printPlainErr (msg : String) : Event
  | sendBlocked (host : String) (msg : String) : Event
  | taskDone (host : String) : Event
  | exitProc (code : Nat) (msg : String) : Event
  | dispatcherReturn : Event
deriving DecidableEq

/-- A Go receive from an `Option`-modelled one-shot channel, as a list of
the values obtained (`[e]` when a value is delivered, `[]` when not). -/
def errListOf : Option String → List String
  | some e => [e]
  | none => []

/-- The line rendering of the multi-host relay: the fixed template
`.Name` piped through the colour function, then `":"` piped through the
colour function, then two literal spaces, then `.Value`, where `.Value`
is the line exactly as `ReadString` returned it (delimiter included). -/
def render (color : String → String) (name : String) (line : List Char) : String :=
  color name ++ color ":" ++ "  " ++ String.mk line

/-- The multi-host relay loop of `exec`: repeatedly `ReadString('\n')`
from the buffered remote stdout (`cur` is the partial line scanned so
far, in reverse), render and print each complete line, and on a read
error other than end-of-file send that error on the error channel and
stop.  Returns (printed lines, errors sent on `errCh`). -/
def relayAux (color : String → String) (name : String) (endErr : Option String) :
    List Char → List Char → List String × List String
  | _, [] => ([], errListOf endErr)
  | cur, c :: cs =>
    if c = '\n' then
      let r := relayAux color name endErr [] cs
      (render color name (cur.reverse ++ [c]) :: r.1, r.2)
    else
      relayAux color name endErr (c :: cur) cs

/-- The multi-host relay applied to a whole stream. -/
def relayMulti (color : String → String) (name : String) (st : Stream) :
    List String × List String :=
  relayAux color name st.endErr [] st.data

/-- The events of the stdout goroutine of `exec`: single-host mode is
`io.Copy(os.Stdout, sshSession.Stdout)` (raw bytes, read errors
discarded); multi-host mode is the line relay. -/
def streamEvents (color : String → String) (single : Bool) (s : Server) (b : Behavior) :
    List Event :=
  if single then
    [Event.outputW (String.mk b.stream.data)]
  else
    (relayMulti color s.name b.stream).1.map Event.outputW ++
      (relayMulti color s.name b.stream).2.map (Event.errSent s.name)

/-- The event sequence of one call to `exec(ctx, s, singleServer, cmd, errCh)`.
Failure of `s.sshClient()` sends the error and returns at once; failure
of `NewSession()` sends the error, runs the deferred client close and
returns; otherwise `PipeExec` is started, the stdout goroutine relays
the stream, the main flow waits on the first of `ctx.Done()` /
`sshSession.Done()`, force-closes the client, and `errWg.Wait()` lets the
error-relay goroutine complete its single receive from
`sshSession.Error()` (forwarding a delivered value to `errCh`) before
`exec` returns.  Concurrent sub-activities are serialised at these
synchronisation points.

This serialisation abstracts the capacity-1 blocking of `errCh`: it
records the error relay's forward and the exec return unconditionally,
and is exact precisely when at most one producer actually sends — single
mode, a cleanly ending stream, or an undelivered error signal
(`execTraceCh_eq_execTrace` below).  The refinement `execTraceCh` models
the channel slot and is used where the double-send case matters. -/
def execTrace (color : String → String) (single : Bool) (cmd : String)
    (s : Server) (b : Behavior) : List Event :=
  match b.connectErr with
  | some e => [Event.errSent s.name e, Event.execReturn s.name]
  | none =>
    Event.connOpened s.name ::
      match b.sessionErr with
      | some e => [Event.errSent s.name e, Event.connClosed s.name, Event.execReturn s.name]
      | none =>
        Event.sessionOpened s.name :: Event.pipeExecStarted s.name cmd ::
          (streamEvents color single s b ++
            [Event.termObserved s.name b.termReason, Event.connClosed s.name,
              Event.errDrained s.name b.errSignal] ++
            (errListOf b.errSignal).map (Event.errSent s.name) ++
            [Event.execReturn s.name])

/-- The values sent on a task's `errCh`, read off an event sequence. -/
def errSends (tr : List Event) : List String :=
  tr.filterMap fun e =>
    match e with
    | Event.errSent _ m => some m
    | _ => none

/-- The value the non-blocking drain `select case err := <-errCh`
obtains after `exec` returns: the first value sent, if any. -/
def firstErr (tr : List Event) : Option String :=
  (errSends tr).head?

/-- The texts written to local standard output in an event sequence. -/
def outputsOf (tr : List Event) : List String :=
  tr.filterMap fun e =>
    match e with
    | Event.outputW t => some t
    | _ => none

/-- The goroutine Exec spawns per server in multi mode: run `exec` with
a fresh capacity-1 `errCh`, then non-blockingly drain it and print a
present error as `name:  err`, then `serverWg.Done()`. -/
def taskThread (color : String → String) (cmd : String) (s : Server) (b : Behavior) :
    List Event :=
  Event.taskSpawned s.name ::
    (execTrace color false cmd s b ++
      (match firstErr (execTrace color false cmd s b) with
        | some m => [Event.printHostErr s.name m]
        | none => []) ++
      [Event.taskDone s.name])

/-- Remove and return the front event of queue `i`, if that queue exists
and is nonempty. -/
def pop {α : Type} : List (List α) → Nat → Option (α × List (List α))
  | [], _ => none
  | q :: qt, 0 =>
    match q with
    | [] => none
    | x :: rest => some (x, rest :: qt)
  | q :: qt, n + 1 =>
    match pop qt n with
    | none => none
    | some (x, qt') => some (x, q :: qt')

/-- Interleave the per-task event queues under a scheduler: at each step
the scheduler names a queue whose front event runs next (a name that
denotes a missing or exhausted queue is skipped); when the scheduler is
exhausted the remaining events run in order.  Every interleaving that
keeps each queue's own order is realised by some scheduler. -/
def interleave {α : Type} : List Nat → List (List α) → List α
  | [], qs => qs.flatten
  | i :: sch, qs =>
    match pop qs i with
    | some (x, qs') => x :: interleave sch qs'
    | none => interleave sch qs

/-- The exit status an event carries, if it is a process-exit event. -/
def exitCode? : Event → Option Nat
  | Event.exitProc c _ => some c
  | _ => none

/-- Modelled from the spec: `utils.Exit(msg, code)` (not under `src/`)
prints the message and terminates the process with the given status;
when `Exec` instead returns normally the process later exits 0.  The
exit status of the invocation is therefore the code of the first
`exitProc` event, or 0 when there is none. -/
def processExitCode (tr : List Event) : Nat :=
  match tr.filterMap exitCode? with
  | [] => 0
  | c :: _ => c

/-- The event sequence of one call to `Exec(tagOrName, cmd, singleServer)`.
Host resolution is `FindServerByName` / `FindServersByTag` of the
inventory collaborator, passed in as functions; `env` gives each host's
ssh behaviour and `sch` the scheduler for the multi-mode goroutines. -/
def ExecTrace (color : String → String) (tagOrName cmd : String) (singleServer : Bool)
    (findServerByName : String → Option Server)
    (findServersByTag : String → List Server)
    (env : String → Behavior) (sch : List Nat) : List Event :=
  if singleServer then
    match findServerByName tagOrName with
    | none => [Event.exitProc 1 "server not found"]
    | some s =>
      execTrace color true cmd s (env s.name) ++
        (match firstErr (execTrace color true cmd s (env s.name)) with
          | some m => [Event.printPlainErr m]
          | none => []) ++
        [Event.dispatcherReturn]
  else
    let servers := findServersByTag tagOrName
    if servers = [] then
      [Event.exitProc 1 "tagged server not found"]
    else
      interleave sch (servers.map fun s => taskThread color cmd s (env s.name)) ++
        [Event.dispatcherReturn]

/-- Recogniser for task-spawn events. -/
def isSpawn : Event → Bool
  | Event.taskSpawned _ => true
  | _ => false

end Mmh

namespace Mmh

theorem pop_flatten_perm {α : Type} (qs : List (List α)) :
    ∀ (j : Nat) (x : α) (qs' : List (List α)),
      pop qs j = some (x, qs') → List.Perm qs.flatten (x :: qs'.flatten) := by
  induction qs with
  | nil => intro j x qs' h; simp [pop] at h
  | cons q qt ih =>
    intro j x qs' h
    cases j with
    | zero =>
      cases q with
      | nil => simp [pop] at h
      | cons y rest =>
        simp [pop] at h
        obtain ⟨rfl, rfl⟩ := h
        simp
    | succ n =>
      cases hp : pop qt n with
      | none => simp [pop, hp] at h
      | some p =>
        simp [pop, hp] at h
        obtain ⟨rfl, rfl⟩ := h
        have hperm := ih n p.1 p.2 hp
        simp only [List.flatten_cons]
        exact (List.Perm.append_left q hperm).trans List.perm_middle

theorem interleave_perm {α : Type} (sch : List Nat) :
    ∀ qs : List (List α), List.Perm (interleave sch qs) qs.flatten := by
  induction sch with
  | nil => intro qs; simp [interleave]
  | cons j sch ih =>
    intro qs
    cases hp : pop qs j with
    | none => simpa [interleave, hp] using ih qs
    | some p =>
      have h1 := pop_flatten_perm qs j p.1 p.2 hp
      have h2 := ih p.2
      simp only [interleave, hp]
      exact (h2.cons p.1).trans h1.symm

theorem pop_getElem {α : Type} (qs : List (List α)) :
    ∀ (j : Nat) (x : α) (qs' : List (List α)), pop qs j = some (x, qs') →
      ∀ (i : Nat) (q : List α), qs[i]? = some q →
        (∃ rest, q = x :: rest ∧ qs'[i]? = some rest) ∨ qs'[i]? = some q := by
  induction qs with
  | nil => intro j x qs' h; simp [pop] at h
  | cons qh qt ih =>
    intro j x qs' h i q hq
    cases j with
    | zero =>
      cases qh with
      | nil => simp [pop] at h
      | cons y rest =>
        simp [pop] at h
        obtain ⟨rfl, rfl⟩ := h
        cases i with
        | zero =>
          simp at hq
          subst hq
          exact Or.inl ⟨rest, rfl, by simp⟩
        | succ m =>
          simp at hq
          exact Or.inr (by simpa using hq)
    | succ n =>
      cases hp : pop qt n with
      | none => simp [pop, hp] at h
      | some p =>
        simp [pop, hp] at h
        obtain ⟨rfl, rfl⟩ := h
        cases i with
        | zero =>
          simp at hq
          exact Or.inr (by simpa using hq)
        | succ m =>
          rcases ih n p.1 p.2 hp m q (by simpa using hq) with ⟨rest, hrest, hget⟩ | hget
          · exact Or.inl ⟨rest, hrest, by simpa using hget⟩
          · exact Or.inr (by simpa using hget)

theorem sublist_interleave {α : Type} (sch : List Nat) :
    ∀ (qs : List (List α)) (i : Nat) (q : List α),
      qs[i]? = some q → q.Sublist (interleave sch qs) := by
  induction sch with
  | nil =>
    intro qs i q hq
    simpa [interleave] using List.sublist_flatten_of_mem (List.getElem?_mem hq)
  | cons j sch ih =>
    intro qs i q hq
    cases hp : pop qs j with
    | none => simpa [interleave, hp] using ih qs i q hq
    | some p =>
      simp only [interleave, hp]
      rcases pop_getElem qs j p.1 p.2 hp i q hq with ⟨rest, rfl, hget⟩ | hget
      · exact (ih p.2 i rest hget).cons₂ p.1
      · exact (ih p.2 i q hget).cons p.1

end Mmh

namespace Mmh

/-- Recogniser for process-exit events. -/
def isExit : Event → Bool
  | Event.exitProc _ _ => true
  | _ => false

theorem execTrace_countP_spawn (color : String → String) (single : Bool) (cmd : String)
    (s : Server) (b : Behavior) :
    (execTrace color single cmd s b).countP isSpawn = 0 := by
  rcases b with ⟨ce, se, tr, sig, st⟩
  cases ce <;> cases se <;> cases sig <;> cases single <;>
    simp [execTrace, streamEvents, errListOf, isSpawn, Function.comp_def]

theorem execTrace_countP_exit (color : String → String) (single : Bool) (cmd : String)
    (s : Server) (b : Behavior) :
    (execTrace color single cmd s b).countP isExit = 0 := by
  rcases b with ⟨ce, se, tr, sig, st⟩
  cases ce <;> cases se <;> cases sig <;> cases single <;>
    simp [execTrace, streamEvents, errListOf, isExit, Function.comp_def]

theorem taskThread_countP_spawn (color : String → String) (cmd : String)
    (s : Server) (b : Behavior) :
    (taskThread color cmd s b).countP isSpawn = 1 := by
  unfold taskThread
  cases h : firstErr (execTrace color false cmd s b) <;>
    simp [isSpawn, execTrace_countP_spawn, h]

theorem taskThread_countP_exit (color : String → String) (cmd : String)
    (s : Server) (b : Behavior) :
    (taskThread color cmd s b).countP isExit = 0 := by
  unfold taskThread
  cases h : firstErr (execTrace color false cmd s b) <;>
    simp [isExit, execTrace_countP_exit, h]

theorem execTrace_concat (color : String → String) (single : Bool) (cmd : String)
    (s : Server) (b : Behavior) :
    ∃ pre, execTrace color single cmd s b = pre ++ [Event.execReturn s.name] := by
  rcases b with ⟨ce, se, tr, sig, st⟩
  cases ce with
  | some e => exact ⟨[Event.errSent s.name e], rfl⟩
  | none =>
    cases se with
    | some e =>
      exact ⟨[Event.connOpened s.name, Event.errSent s.name e, Event.connClosed s.name], rfl⟩
    | none =>
      refine ⟨Event.connOpened s.name :: Event.sessionOpened s.name ::
        Event.pipeExecStarted s.name cmd ::
        (streamEvents color single s ⟨none, none, tr, sig, st⟩ ++
          [Event.termObserved s.name tr, Event.connClosed s.name,
            Event.errDrained s.name sig] ++
          (errListOf sig).map (Event.errSent s.name)), ?_⟩
      simp [execTrace, List.append_assoc]

end Mmh

namespace Mmh

theorem relayAux_spec (color : String → String) (name : String) (endErr : Option String) :
    ∀ (data cur : List Char),
      (relayAux color name endErr cur data).1.length = data.count '\n' ∧
      ∀ o ∈ (relayAux color name endErr cur data).1,
        ∃ l pre post, o = render color name l ∧ l.getLast? = some '\n' ∧
          cur.reverse ++ data = pre ++ l ++ post := by
  intro data
  induction data with
  | nil => intro cur; simp [relayAux]
  | cons c cs ih =>
    intro cur
    by_cases hc : c = '\n'
    · subst hc
      refine ⟨?_, ?_⟩
      · simp [relayAux, List.count_cons, (ih []).1]
      · intro o ho
        simp [relayAux] at ho
        rcases ho with rfl | ho
        · exact ⟨cur.reverse ++ ['\n'], [], cs, rfl, by simp, by simp⟩
        · rcases (ih []).2 o ho with ⟨l, pre, post, ho1, ho2, ho3⟩
          refine ⟨l, cur.reverse ++ ['\n'] ++ pre, post, ho1, ho2, ?_⟩
          simp only [List.reverse_nil, List.nil_append] at ho3
          simp [ho3, List.append_assoc]
    · refine ⟨?_, ?_⟩
      · simpa [relayAux, hc, List.count_cons] using (ih (c :: cur)).1
      · intro o ho
        simp [relayAux, hc] at ho
        rcases (ih (c :: cur)).2 o ho with ⟨l, pre, post, ho1, ho2, ho3⟩
        refine ⟨l, pre, post, ho1, ho2, ?_⟩
        simp only [List.reverse_cons, List.append_assoc] at ho3
        simpa [List.append_assoc] using ho3

end Mmh

namespace Mmh

theorem relayAux_snd (color : String → String) (name : String) (endErr : Option String) :
    ∀ (data cur : List Char), (relayAux color name endErr cur data).2 = errListOf endErr := by
  intro data
  induction data with
  | nil => intro cur; simp [relayAux]
  | cons c cs ih => intro cur; by_cases hc : c = '\n' <;> simp [relayAux, hc, ih]

theorem exitCode?_eq_none (e : Event) (h : isExit e = false) : exitCode? e = none := by
  cases e <;> simp_all [isExit, exitCode?]

theorem taskDone_mem_taskThread (color : String → String) (cmd : String)
    (s : Server) (b : Behavior) :
    Event.taskDone s.name ∈ taskThread color cmd s b := by
  unfold taskThread
  cases firstErr (execTrace color false cmd s b) <;> simp

theorem execTrace_errSends_success (color : String → String) (single : Bool) (cmd : String)
    (s : Server) (b : Behavior) (hc : b.connectErr = none) (hs : b.sessionErr = none) :
    errSends (execTrace color single cmd s b) =
      (if single then [] else errListOf b.stream.endErr) ++ errListOf b.errSignal := by
  rcases b with ⟨ce, se, tr, sig, st⟩
  simp only at hc hs
  subst hc
  subst hs
  cases single <;> cases sig <;>
    simp [execTrace, streamEvents, errSends, relayMulti, relayAux_snd, errListOf,
      List.filterMap_append, List.filterMap_map, Function.comp_def]

end Mmh

namespace Mmh

/-- The rendering the specification's words describe for one multi-host
output line: the line-feed delimiter stripped and a single space between
the coloured separator and the line text. -/
def specRenderLine (color : String → String) (name : String) (line : List Char) : String :=
  color name ++ color ":" ++ " " ++
    String.mk (if line.getLast? = some '\n' then line.dropLast else line)

/-- C2: counterexample.  For host "a" with the identity colour function and
remote stream "hi\n", the relay emits the single line "a:  hi\n": the
line-feed delimiter is retained and two spaces follow the separator, which
differs from the claimed rendering (delimiter stripped, single space). -/
theorem C2_counterexample :
    (relayMulti id "a" ⟨['h', 'i', '\n'], none⟩).1 = ["a:  hi\n"] ∧
    (relayMulti id "a" ⟨['h', 'i', '\n'], none⟩).1 ≠
      [specRenderLine id "a" ['h', 'i', '\n']] := by
  decide

/-- C2 (amended): in multi-host mode the relay emits one rendered line per
line-feed in the host's stream; every emitted line is
`<colored host name><colored separator>` followed by TWO spaces and the
line text, where the text is a contiguous piece of that same host's stream
ending in its (retained) line-feed delimiter; and the lines the task's
stdout goroutine writes are exactly the relay's lines rendered with the
task's own host name. -/
theorem C2_multi_relay (color : String → String) (s : Server) (b : Behavior) :
    outputsOf (streamEvents color false s b) = (relayMulti color s.name b.stream).1 ∧
    (relayMulti color s.name b.stream).1.length = b.stream.data.count '\n' ∧
    ∀ o ∈ (relayMulti color s.name b.stream).1,
      ∃ l pre post, o = color s.name ++ color ":" ++ "  " ++ String.mk l ∧
        l.getLast? = some '\n' ∧ b.stream.data = pre ++ l ++ post := by
  have h := relayAux_spec color s.name b.stream.endErr b.stream.data []
  refine ⟨?_, h.1, fun o ho => ?_⟩
  · simp [outputsOf, streamEvents, List.filterMap_append, List.filterMap_map,
      Function.comp_def]
  · rcases h.2 o ho with ⟨l, pre, post, h1, h2, h3⟩
    exact ⟨l, pre, post, h1, h2, by simpa using h3⟩

end Mmh

namespace Mmh

/-- C6: in single-host mode, when the connection and the session open
successfully, the text written to local standard output is exactly the
remote stream's bytes: byte-for-byte passthrough with no reformatting, no
host-name injection, and partial lines preserved. -/
theorem C6_single_passthrough (color : String → String) (cmd : String) (s : Server)
    (b : Behavior) (hc : b.connectErr = none) (hs : b.sessionErr = none) :
    outputsOf (execTrace color true cmd s b) = [String.mk b.stream.data] := by
  rcases b with ⟨ce, se, tr, sig, st⟩
  simp only at hc hs
  subst hc
  subst hs
  cases sig <;>
    simp [execTrace, streamEvents, outputsOf, errListOf, List.filterMap_append]

/-- C6 witness: host "web1" with stream "hi\nwo" (a complete line then a
partial one): the local output is exactly "hi\nwo". -/
theorem C6_single_passthrough_witness :
    outputsOf (execTrace id true "echo hi" ⟨"web1"⟩
      ⟨none, none, TermReason.done, none, ⟨['h', 'i', '\n', 'w', 'o'], none⟩⟩) =
      [String.mk ['h', 'i', '\n', 'w', 'o']] :=
  C6_single_passthrough id "echo hi" ⟨"web1"⟩ _ rfl rfl

/-- C3: the code violates the claim.  With a connection and session that
open successfully, a remote stream that ends in a mid-read error, and a
session error signal that delivers a protocol error, the task sends TWO
error values on its capacity-1 error channel — one from the output relay
and one from the error relay — so the claim that at most one error is ever
sent (and hence that no send can block) fails. -/
theorem C3_two_error_sends :
    errSends (execTrace id false "c" ⟨"h"⟩
      ⟨none, none, TermReason.done, some "protocol failure",
        ⟨['p'], some "read failure"⟩⟩) = ["read failure", "protocol failure"] := by
  decide

/-- C5: zero resolved hosts abort before any task is spawned: an unknown
name in single mode, or a tag matching no host in multi mode, produce a
trace that is exactly the fatal resolution message with exit status 1 and
contains no task-spawn event. -/
theorem C5_resolution_failure (color : String → String) (tagOrName cmd : String)
    (fbn : String → Option Server) (fbt : String → List Server)
    (env : String → Behavior) (sch : List Nat) :
    (fbn tagOrName = none →
      ExecTrace color tagOrName cmd true fbn fbt env sch =
        [Event.exitProc 1 "server not found"] ∧
      (ExecTrace color tagOrName cmd true fbn fbt env sch).countP isSpawn = 0 ∧
      processExitCode (ExecTrace color tagOrName cmd true fbn fbt env sch) = 1) ∧
    (fbt tagOrName = [] →
      ExecTrace color tagOrName cmd false fbn fbt env sch =
        [Event.exitProc 1 "tagged server not found"] ∧
      (ExecTrace color tagOrName cmd false fbn fbt env sch).countP isSpawn = 0 ∧
      processExitCode (ExecTrace color tagOrName cmd false fbn fbt env sch) = 1) := by
  constructor
  · intro h
    have e1 : ExecTrace color tagOrName cmd true fbn fbt env sch =
        [Event.exitProc 1 "server not found"] := by simp [ExecTrace, h]
    exact ⟨e1, by rw [e1]; decide, by rw [e1]; decide⟩
  · intro h
    have e1 : ExecTrace color tagOrName cmd false fbn fbt env sch =
        [Event.exitProc 1 "tagged server not found"] := by simp [ExecTrace, h]
    exact ⟨e1, by rw [e1]; decide, by rw [e1]; decide⟩

/-- C5 witness: targeting the unknown name/tag "nonexistent" with an
inventory that resolves nothing. -/
theorem C5_resolution_failure_witness :
    (ExecTrace id "nonexistent" "cmd" true (fun _ => none) (fun _ => [])
        (fun _ => ⟨none, none, TermReason.done, none, ⟨[], none⟩⟩) [] =
      [Event.exitProc 1 "server not found"] ∧
      (ExecTrace id "nonexistent" "cmd" true (fun _ => none) (fun _ => [])
        (fun _ => ⟨none, none, TermReason.done, none, ⟨[], none⟩⟩) []).countP isSpawn = 0 ∧
      processExitCode (ExecTrace id "nonexistent" "cmd" true (fun _ => none) (fun _ => [])
        (fun _ => ⟨none, none, TermReason.done, none, ⟨[], none⟩⟩) []) = 1) ∧
    (ExecTrace id "nonexistent" "cmd" false (fun _ => none) (fun _ => [])
        (fun _ => ⟨none, none, TermReason.done, none, ⟨[], none⟩⟩) [] =
      [Event.exitProc 1 "tagged server not found"] ∧
      (ExecTrace id "nonexistent" "cmd" false (fun _ => none) (fun _ => [])
        (fun _ => ⟨none, none, TermReason.done, none, ⟨[], none⟩⟩) []).countP isSpawn = 0 ∧
      processExitCode (ExecTrace id "nonexistent" "cmd" false (fun _ => none) (fun _ => [])
        (fun _ => ⟨none, none, TermReason.done, none, ⟨[], none⟩⟩) []) = 1) :=
  ⟨(C5_resolution_failure id "nonexistent" "cmd" (fun _ => none) (fun _ => [])
      (fun _ => ⟨none, none, TermReason.done, none, ⟨[], none⟩⟩) []).1 rfl,
    (C5_resolution_failure id "nonexistent" "cmd" (fun _ => none) (fun _ => [])
      (fun _ => ⟨none, none, TermReason.done, none, ⟨[], none⟩⟩) []).2 rfl⟩

end Mmh

namespace Mmh

/-- C9: a failed connection open sends that error on the task's error
channel and terminates the task with no session attempted (and no remote
command started); a failure to open the session sends that error, runs the
deferred connection close, and terminates without starting the remote
command. -/
theorem C9_setup_failures (color : String → String) (single : Bool) (cmd : String)
    (s : Server) (b : Behavior) :
    (∀ e, b.connectErr = some e →
      execTrace color single cmd s b =
        [Event.errSent s.name e, Event.execReturn s.name]) ∧
    (∀ e, b.connectErr = none → b.sessionErr = some e →
      execTrace color single cmd s b =
        [Event.connOpened s.name, Event.errSent s.name e,
          Event.connClosed s.name, Event.execReturn s.name]) := by
  constructor
  · intro e he
    simp [execTrace, he]
  · intro e hc hs
    simp [execTrace, hc, hs]

/-- C9 witness: a host whose connection open fails with "dial failed", and
a host whose connection succeeds but whose session open fails with
"session failed". -/
theorem C9_setup_failures_witness :
    execTrace id false "c" ⟨"h"⟩
        ⟨some "dial failed", none, TermReason.done, none, ⟨[], none⟩⟩ =
      [Event.errSent "h" "dial failed", Event.execReturn "h"] ∧
    execTrace id false "c" ⟨"h"⟩
        ⟨none, some "session failed", TermReason.done, none, ⟨[], none⟩⟩ =
      [Event.connOpened "h", Event.errSent "h" "session failed",
        Event.connClosed "h", Event.execReturn "h"] :=
  ⟨(C9_setup_failures id false "c" ⟨"h"⟩
      ⟨some "dial failed", none, TermReason.done, none, ⟨[], none⟩⟩).1
      "dial failed" rfl,
    (C9_setup_failures id false "c" ⟨"h"⟩
      ⟨none, some "session failed", TermReason.done, none, ⟨[], none⟩⟩).2
      "session failed" rfl rfl⟩

/-- C10: when the session's error signal channel is closed without ever
delivering a value (the receive reports not-ok), the error relay sends
nothing: the task's error-channel sends are exactly those of the output
relay (none at all in single mode or when the stream ends cleanly), so a
closed error signal is treated as the absence of an error. -/
theorem C10_closed_signal (color : String → String) (single : Bool) (cmd : String)
    (s : Server) (b : Behavior) (hc : b.connectErr = none) (hs : b.sessionErr = none)
    (hsig : b.errSignal = none) :
    errSends (execTrace color single cmd s b) =
      (if single then [] else errListOf b.stream.endErr) ∧
    (b.stream.endErr = none → errSends (execTrace color single cmd s b) = []) := by
  have h := execTrace_errSends_success color single cmd s b hc hs
  rw [hsig] at h
  constructor
  · simpa [errListOf] using h
  · intro hend
    rw [hend] at h
    cases single <;> simpa [errListOf] using h

/-- C10 witness: a clean run (closed error signal, clean end-of-file) in
multi mode sends no error at all. -/
theorem C10_closed_signal_witness :
    errSends (execTrace id false "c" ⟨"h"⟩
      ⟨none, none, TermReason.done, none, ⟨['o', 'k', '\n'], none⟩⟩) =
      (if false then [] else errListOf (none : Option String)) ∧
    errSends (execTrace id false "c" ⟨"h"⟩
      ⟨none, none, TermReason.done, none, ⟨['o', 'k', '\n'], none⟩⟩) = [] :=
  ⟨(C10_closed_signal id false "c" ⟨"h"⟩
      ⟨none, none, TermReason.done, none, ⟨['o', 'k', '\n'], none⟩⟩ rfl rfl rfl).1,
    (C10_closed_signal id false "c" ⟨"h"⟩
      ⟨none, none, TermReason.done, none, ⟨['o', 'k', '\n'], none⟩⟩ rfl rfl rfl).2 rfl⟩

end Mmh

namespace Mmh

/-- The content of the capacity-1 `errCh` slot once the stdout goroutine
has finished: in multi mode a mid-stream read (or render) error is the
relay's first — and, the slot being empty, never-blocking — send; single
mode discards the `io.Copy` error and sends nothing. -/
def slotAfterStream (single : Bool) (st : Stream) : Option String :=
  if single then none else st.endErr

/-- The event sequence of one call to `exec` with the capacity-1 `errCh`
modelled explicitly.  It refines `execTrace`: identical up to the error
relay's single receive from `sshSession.Error()`, but the forward of a
delivered value `m` to `errCh` depends on the channel slot.  If the slot
is empty the send succeeds and `exec` returns after `errWg.Wait()`.  If
the output relay already filled the slot, the send `errCh <- m` blocks
forever — the only receive is the caller's single non-blocking drain
after `exec` returns, which never happens because `errWg.Wait()` waits on
this very goroutine's deferred `Done` — so the value is never delivered
and `exec` never returns (no `execReturn` event). -/
def execTraceCh (color : String → String) (single : Bool) (cmd : String)
    (s : Server) (b : Behavior) : List Event :=
  match b.connectErr with
  | some e => [Event.errSent s.name e, Event.execReturn s.name]
  | none =>
    Event.connOpened s.name ::
      match b.sessionErr with
      | some e => [Event.errSent s.name e, Event.connClosed s.name, Event.execReturn s.name]
      | none =>
        Event.sessionOpened s.name :: Event.pipeExecStarted s.name cmd ::
          (streamEvents color single s b ++
            [Event.termObserved s.name b.termReason, Event.connClosed s.name,
              Event.errDrained s.name b.errSignal] ++
            (match b.errSignal with
              | none => [Event.execReturn s.name]
              | some m =>
                match slotAfterStream single b.stream with
                | none => [Event.errSent s.name m, Event.execReturn s.name]
                | some _ => [Event.sendBlocked s.name m]))

/-- On every input on which at most one producer sends on `errCh` — single
mode, a cleanly ending stream, or an undelivered error signal — the
channel-aware model coincides with the serialisation `execTrace`. -/
theorem execTraceCh_eq_execTrace (color : String → String) (single : Bool)
    (cmd : String) (s : Server) (b : Behavior)
    (h : slotAfterStream single b.stream = none ∨ b.errSignal = none) :
    execTraceCh color single cmd s b = execTrace color single cmd s b := by
  rcases b with ⟨ce, se, tr, sig, st⟩
  cases ce with
  | some e => rfl
  | none =>
    cases se with
    | some e => rfl
    | none =>
      cases sig with
      | none => simp [execTraceCh, execTrace, errListOf]
      | some m =>
        rcases h with h | h
        · simp only at h
          simp [execTraceCh, execTrace, errListOf, h]
        · simp only at h
          exact absurd h (by simp)

/-- C8: the code violates the claim.  At the double-producer input — a
multi-host task whose connection and session open succeed, whose remote
stream ends in a mid-read error, and whose session error signal delivers a
protocol error exactly at session end — the channel-aware trace ends with
the error relay's send blocking on the already-full capacity-1 channel:
the protocol error is never sent on the task's error channel and the exec
call never finishes, contradicting the claim that the post-close drain
still delivers a session-end protocol error before the task finishes. -/
theorem C8_blocked_send :
    execTraceCh id false "c" ⟨"h"⟩
      ⟨none, none, TermReason.done, some "protocol failure",
        ⟨['p'], some "read failure"⟩⟩ =
      [Event.connOpened "h", Event.sessionOpened "h",
        Event.pipeExecStarted "h" "c", Event.errSent "h" "read failure",
        Event.termObserved "h" TermReason.done, Event.connClosed "h",
        Event.errDrained "h" (some "protocol failure"),
        Event.sendBlocked "h" "protocol failure"] ∧
    Event.errSent "h" "protocol failure" ∉
      execTraceCh id false "c" ⟨"h"⟩
        ⟨none, none, TermReason.done, some "protocol failure",
          ⟨['p'], some "read failure"⟩⟩ ∧
    Event.execReturn "h" ∉
      execTraceCh id false "c" ⟨"h"⟩
        ⟨none, none, TermReason.done, some "protocol failure",
          ⟨['p'], some "read failure"⟩⟩ := by
  decide

end Mmh

namespace Mmh

/-- C1: in multi mode, for every scheduler and every resolved host list with
at least one host, the trace is the interleaved task events followed by the
dispatcher's return: it contains exactly one task-spawn event per resolved
host, and every host's task-done event precedes the final return, so the
dispatcher returns only after all tasks have terminated. -/
theorem C1_spawn_and_join (color : String → String) (tagOrName cmd : String)
    (fbn : String → Option Server) (fbt : String → List Server)
    (env : String → Behavior) (sch : List Nat) (h : fbt tagOrName ≠ []) :
    ∃ body, ExecTrace color tagOrName cmd false fbn fbt env sch =
        body ++ [Event.dispatcherReturn] ∧
      body.countP isSpawn = (fbt tagOrName).length ∧
      ∀ s ∈ fbt tagOrName, Event.taskDone s.name ∈ body := by
  refine ⟨interleave sch ((fbt tagOrName).map fun s => taskThread color cmd s (env s.name)),
    by simp [ExecTrace, h], ?_, ?_⟩
  · rw [(interleave_perm sch _).countP_eq]
    simp [taskThread_countP_spawn, List.map_const', Function.comp_def]
  · intro s hs
    have hthread := List.mem_map_of_mem
      (fun s => taskThread color cmd s (env s.name)) hs
    have hmem := List.mem_flatten_of_mem hthread
      (taskDone_mem_taskThread color cmd s (env s.name))
    exact ((interleave_perm sch _).mem_iff).2 hmem

/-- C1 witness: two hosts "a" and "b" resolved for tag "t" under the empty
scheduler. -/
theorem C1_spawn_and_join_witness :
    ((fun _ => [(⟨"a"⟩ : Server), ⟨"b"⟩]) "t" ≠ ([] : List Server)) ∧
    ∃ body, ExecTrace id "t" "cmd" false (fun _ => none)
        (fun _ => [(⟨"a"⟩ : Server), ⟨"b"⟩])
        (fun _ => ⟨none, none, TermReason.done, none, ⟨[], none⟩⟩) [] =
        body ++ [Event.dispatcherReturn] ∧
      body.countP isSpawn =
        ((fun _ => [(⟨"a"⟩ : Server), ⟨"b"⟩]) "t").length ∧
      ∀ s ∈ (fun _ => [(⟨"a"⟩ : Server), ⟨"b"⟩]) "t",
        Event.taskDone s.name ∈ body :=
  ⟨by decide, C1_spawn_and_join id "t" "cmd" (fun _ => none)
    (fun _ => [(⟨"a"⟩ : Server), ⟨"b"⟩])
    (fun _ => ⟨none, none, TermReason.done, none, ⟨[], none⟩⟩) [] (by decide)⟩

end Mmh

namespace Mmh

/-- C4: counterexample.  Hosts "a" (whose connection open fails with
"boom") and "b" (which succeeds), with the scheduler running a's task to
completion first: a's error is printed by a's own task before b's task has
terminated, so per-host errors are NOT printed only after the join
barrier. -/
theorem C4_counterexample :
    Event.printHostErr "a" "boom" ∈
      ExecTrace id "t" "c" false (fun _ => none)
        (fun _ => [(⟨"a"⟩ : Server), ⟨"b"⟩])
        (fun n => if n = "a" then ⟨some "boom", none, TermReason.done, none, ⟨[], none⟩⟩
          else ⟨none, none, TermReason.done, none, ⟨[], none⟩⟩)
        [0, 0, 0, 0, 0] ∧
    Event.taskDone "b" ∈
      ExecTrace id "t" "c" false (fun _ => none)
        (fun _ => [(⟨"a"⟩ : Server), ⟨"b"⟩])
        (fun n => if n = "a" then ⟨some "boom", none, TermReason.done, none, ⟨[], none⟩⟩
          else ⟨none, none, TermReason.done, none, ⟨[], none⟩⟩)
        [0, 0, 0, 0, 0] ∧
    (ExecTrace id "t" "c" false (fun _ => none)
        (fun _ => [(⟨"a"⟩ : Server), ⟨"b"⟩])
        (fun n => if n = "a" then ⟨some "boom", none, TermReason.done, none, ⟨[], none⟩⟩
          else ⟨none, none, TermReason.done, none, ⟨[], none⟩⟩)
        [0, 0, 0, 0, 0]).indexOf (Event.printHostErr "a" "boom") <
      (ExecTrace id "t" "c" false (fun _ => none)
        (fun _ => [(⟨"a"⟩ : Server), ⟨"b"⟩])
        (fun n => if n = "a" then ⟨some "boom", none, TermReason.done, none, ⟨[], none⟩⟩
          else ⟨none, none, TermReason.done, none, ⟨[], none⟩⟩)
        [0, 0, 0, 0, 0]).indexOf (Event.taskDone "b") := by
  decide

/-- C4 (amended): each per-host error is printed by that host's own task,
immediately after that task's exec call returns and before that same task
signals done — hence possibly before other tasks have terminated — and the
dispatcher's return is still the last event of the trace. -/
theorem C4_per_task_error_print (color : String → String) (tagOrName cmd : String)
    (fbn : String → Option Server) (fbt : String → List Server)
    (env : String → Behavior) (sch : List Nat) (i : Nat) (s : Server) (m : String)
    (hs : (fbt tagOrName)[i]? = some s)
    (hm : firstErr (execTrace color false cmd s (env s.name)) = some m) :
    ∃ body, ExecTrace color tagOrName cmd false fbn fbt env sch =
        body ++ [Event.dispatcherReturn] ∧
      [Event.execReturn s.name, Event.printHostErr s.name m,
        Event.taskDone s.name].Sublist body := by
  have hne : fbt tagOrName ≠ [] := by
    intro h0
    rw [h0] at hs
    simp at hs
  refine ⟨interleave sch ((fbt tagOrName).map fun s => taskThread color cmd s (env s.name)),
    by simp [ExecTrace, hne], ?_⟩
  have hidx : ((fbt tagOrName).map fun s => taskThread color cmd s (env s.name))[i]? =
      some (taskThread color cmd s (env s.name)) := by
    simp [List.getElem?_map, hs]
  refine List.Sublist.trans ?_ (sublist_interleave sch _ i _ hidx)
  obtain ⟨pre, hpre⟩ := execTrace_concat color false cmd s (env s.name)
  unfold taskThread
  rw [hm, hpre]
  simp only [List.append_assoc, List.cons_append, List.nil_append]
  exact (List.sublist_append_right pre _).cons _

/-- C4 (amended) witness: the same two-host scenario as the
counterexample; host "a" is resolved at index 0 and its connection error
"boom" is printed between a's exec return and a's done event. -/
theorem C4_per_task_error_print_witness :
    (((fun _ => [(⟨"a"⟩ : Server), ⟨"b"⟩]) "t")[0]? = some (⟨"a"⟩ : Server)) ∧
    firstErr (execTrace id false "c" ⟨"a"⟩
        ⟨some "boom", none, TermReason.done, none, ⟨[], none⟩⟩) = some "boom" ∧
    ∃ body, ExecTrace id "t" "c" false (fun _ => none)
        (fun _ => [(⟨"a"⟩ : Server), ⟨"b"⟩])
        (fun n => if n = "a" then ⟨some "boom", none, TermReason.done, none, ⟨[], none⟩⟩
          else ⟨none, none, TermReason.done, none, ⟨[], none⟩⟩)
        [0, 0, 0, 0, 0] =
        body ++ [Event.dispatcherReturn] ∧
      [Event.execReturn "a", Event.printHostErr "a" "boom",
        Event.taskDone "a"].Sublist body :=
  ⟨by decide, by decide,
    C4_per_task_error_print id "t" "c" (fun _ => none)
      (fun _ => [(⟨"a"⟩ : Server), ⟨"b"⟩])
      (fun n => if n = "a" then ⟨some "boom", none, TermReason.done, none, ⟨[], none⟩⟩
        else ⟨none, none, TermReason.done, none, ⟨[], none⟩⟩)
      [0, 0, 0, 0, 0] 0 ⟨"a"⟩ "boom" (by decide) (by decide)⟩

end Mmh

namespace Mmh

/-- C7: when host resolution succeeds in multi mode, per-host failures never
fail the batch: for every environment — including ones in which tasks
report errors — the trace contains no process-exit event, the exit status
is 0, and the dispatcher's return is the last event. -/
theorem C7_per_host_failure_exit_zero (color : String → String) (tagOrName cmd : String)
    (fbn : String → Option Server) (fbt : String → List Server)
    (env : String → Behavior) (sch : List Nat) (h : fbt tagOrName ≠ []) :
    processExitCode (ExecTrace color tagOrName cmd false fbn fbt env sch) = 0 ∧
    (ExecTrace color tagOrName cmd false fbn fbt env sch).getLast? =
      some Event.dispatcherReturn := by
  have htr : ExecTrace color tagOrName cmd false fbn fbt env sch =
      interleave sch ((fbt tagOrName).map fun s => taskThread color cmd s (env s.name)) ++
        [Event.dispatcherReturn] := by
    simp [ExecTrace, h]
  have hexit : ∀ e ∈ interleave sch
      ((fbt tagOrName).map fun s => taskThread color cmd s (env s.name)),
      isExit e = false := by
    have hcount : (interleave sch
        ((fbt tagOrName).map fun s => taskThread color cmd s (env s.name))).countP
          isExit = 0 := by
      rw [(interleave_perm sch _).countP_eq]
      simp [taskThread_countP_exit, List.map_const', Function.comp_def]
    intro e he
    have := List.countP_eq_zero.mp hcount e he
    simpa using this
  constructor
  · rw [htr]
    unfold processExitCode
    have hnil : (interleave sch
        ((fbt tagOrName).map fun s => taskThread color cmd s (env s.name)) ++
          [Event.dispatcherReturn]).filterMap exitCode? = [] := by
      rw [List.filterMap_eq_nil_iff]
      intro e he
      rcases List.mem_append.mp he with he | he
      · exact exitCode?_eq_none e (hexit e he)
      · simp at he
        subst he
        rfl
    rw [hnil]
  · rw [htr]
    exact List.getLast?_concat _

/-- C7 witness: tag "t" resolves hosts "a", "b", "c"; b's connection open
fails with "dial failed" while a and c succeed, yet the exit status is 0
and the dispatcher completes. -/
theorem C7_per_host_failure_exit_zero_witness :
    ((fun _ => [(⟨"a"⟩ : Server), ⟨"b"⟩, ⟨"c"⟩]) "t" ≠ ([] : List Server)) ∧
    processExitCode (ExecTrace id "t" "cmd" false (fun _ => none)
        (fun _ => [(⟨"a"⟩ : Server), ⟨"b"⟩, ⟨"c"⟩])
        (fun n => if n = "b" then ⟨some "dial failed", none, TermReason.done, none, ⟨[], none⟩⟩
          else ⟨none, none, TermReason.done, none, ⟨['h', 'i', '\n'], none⟩⟩) []) = 0 ∧
    (ExecTrace id "t" "cmd" false (fun _ => none)
        (fun _ => [(⟨"a"⟩ : Server), ⟨"b"⟩, ⟨"c"⟩])
        (fun n => if n = "b" then ⟨some "dial failed", none, TermReason.done, none, ⟨[], none⟩⟩
          else ⟨none, none, TermReason.done, none, ⟨['h', 'i', '\n'], none⟩⟩) []).getLast? =
      some Event.dispatcherReturn :=
  ⟨by decide,
    (C7_per_host_failure_exit_zero id "t" "cmd" (fun _ => none)
      (fun _ => [(⟨"a"⟩ : Server), ⟨"b"⟩, ⟨"c"⟩])
      (fun n => if n = "b" then ⟨some "dial failed", none, TermReason.done, none, ⟨[], none⟩⟩
        else ⟨none, none, TermReason.done, none, ⟨['h', 'i', '\n'], none⟩⟩) []
      (by decide)).1,
    (C7_per_host_failure_exit_zero id "t" "cmd" (fun _ => none)
      (fun _ => [(⟨"a"⟩ : Server), ⟨"b"⟩, ⟨"c"⟩])
      (fun n => if n = "b" then ⟨some "dial failed", none, TermReason.done, none, ⟨[], none⟩⟩
        else ⟨none, none, TermReason.done, none, ⟨['h', 'i', '\n'], none⟩⟩) []
      (by decide)).2⟩

end Mmh
